import Mathlib

/-!
Verification of the `pullrequest` CLI (src/main.rs): a shallow embedding of
its orchestration sequence.  External commands (git, gh, the AI endpoint)
are external collaborators; an `Env` fixes the outcome each of them would
have in a given run, and every function from the source is translated into
a function from `Env` to a `Run`: the list of external calls it issues plus
a control-flow result (normal return, propagated error, explicit process
exit, panic, or process-image replacement via exec).
-/

namespace PullRequest

/-- One observable external effect of the program: a spawned command, a
stderr message, or the outbound AI call.  Parameters record the data the
program passes (branch name, prompt, PR title/body/base). -/
inductive Call where
  | gitStatus : Call
  | stderrMsg : String → Call
  | revParse : Call
  | lsRemote : String → Call
  | push : String → Call
  | gitDiff : Call
  | gitLog : Call
  | ai : String → Call
  | ghCreate : String → String → String → Call
  deriving DecidableEq

/-- Control-flow outcome of a piece of the program: `ok` is a normal
return, `err` a propagated `anyhow::Error` (the `?` operator), `exit` an
explicit `std::process::exit`, `fatal` a panic from `expect`, and `exec` a
successful process-image replacement carrying the replacing process's own
exit code. -/
inductive Ctl (α : Type) where
  | ok : α → Ctl α
  | err : String → Ctl α
  | exit : Nat → Ctl α
  | fatal : String → Ctl α
  | exec : Nat → Ctl α
  deriving DecidableEq

/-- A run of a program fragment: the external calls it issued, in order,
and its control-flow result. -/
structure Run (α : Type) where
  trace : List Call
  result : Ctl α
  deriving DecidableEq

/-- Sequencing, modelling Rust `?` propagation: on a normal return the
continuation runs and traces concatenate; every other outcome
short-circuits, keeping the trace so far. -/
def Run.bind {α β : Type} (r : Run α) (f : α → Run β) : Run β :=
  match r with
  | ⟨t, .ok a⟩ => ⟨t ++ (f a).trace, (f a).result⟩
  | ⟨t, .err e⟩ => ⟨t, .err e⟩
  | ⟨t, .exit n⟩ => ⟨t, .exit n⟩
  | ⟨t, .fatal m⟩ => ⟨t, .fatal m⟩
  | ⟨t, .exec n⟩ => ⟨t, .exec n⟩

/-- Outcome of one spawned command, as `std::process::Output` exposes it:
the exit-status success bit and the captured stdout.  `stdout` is the
lossily decoded text; `utf8Valid` records whether the raw bytes were valid
UTF-8, consulted only where the source calls `String::from_utf8`. -/
structure CmdOut where
  success : Bool
  stdout : String
  utf8Valid : Bool
  deriving DecidableEq

/-- The behaviour the outside world would exhibit during one run: for each
external command the program may issue, either an IO-level failure
(`Except.error`, e.g. the binary cannot be spawned) or the command's
outcome.  `pushSpawn` carries, when the spawn succeeds, the eventual
success bit of the pushed child process; the source never reads it.
`aiResult` is the completion text of the AI endpoint or its transport/API
error; `execResult` is the exit code `gh pr create` would end with once
`exec` replaces the process image, or the error `exec` itself returns. -/
structure Env where
  anthropicKey : Option String
  statusResult : Except String CmdOut
  revParseResult : Except String CmdOut
  lsRemoteResult : Except String CmdOut
  pushSpawn : Except String Bool
  diffResult : Except String CmdOut
  logResult : Except String CmdOut
  aiResult : Except String String
  execResult : Except String Nat

/-- Rust `str::trim` on both ends, modelling it with `Char.isWhitespace`
(exact on the ASCII whitespace a branch name query produces). -/
def rustTrim (s : String) : String :=
  ⟨((s.data.dropWhile Char.isWhitespace).reverse.dropWhile Char.isWhitespace).reverse⟩

/-- The fixed dirty-working-tree message printed to stderr (the
`bright_red` colouring is presentation only and is abstracted away). -/
def uncommittedChangesMsg : String :=
  "There are uncommitted changes. Please commit or stash them before proceeding."

/-- `check_uncommitted_changes`: runs `git status --porcelain`; if stdout
is non-empty it prints the fixed message to stderr and calls
`std::process::exit(1)`.  The exit status of the status command itself is
never inspected. -/
def check_uncommitted_changes (env : Env) : Run Unit :=
  match env.statusResult with
  | .error e => ⟨[.gitStatus], .err e⟩
  | .ok out =>
    if out.stdout = "" then ⟨[.gitStatus], .ok ()⟩
    else ⟨[.gitStatus, .stderrMsg uncommittedChangesMsg], .exit 1⟩

/-- `push_to_remote`: spawns `git push origin <branch>` and panics via
`expect` only if the spawn fails; the child's exit status is never waited
on or checked (the check is commented out in the source), so a spawned
push always yields `Ok(())`. -/
def push_to_remote (env : Env) (branch : String) : Run Unit :=
  match env.pushSpawn with
  | .error _ => ⟨[.push branch], .fatal "Could not push"⟩
  | .ok _ => ⟨[.push branch], .ok ()⟩

/-- `get_current_branch`: runs `git rev-parse --abbrev-ref HEAD`; on a
successful exit it decodes stdout with `String::from_utf8` (an error on
invalid bytes, propagated by `?`) and trims it; on a non-zero exit it
returns the fixed error. -/
def get_current_branch (env : Env) : Run String :=
  match env.revParseResult with
  | .error e => ⟨[.revParse], .err e⟩
  | .ok out =>
    if out.success then
      if out.utf8Valid then ⟨[.revParse], .ok (rustTrim out.stdout)⟩
      else ⟨[.revParse], .err "invalid utf-8 sequence"⟩
    else ⟨[.revParse], .err "Failed to get current branch"⟩

/-- `has_remote`: runs `git ls-remote --exit-code --heads origin <branch>`
and returns exactly the success bit of its exit status; a non-zero exit is
never an error, only `Ok(false)`. -/
def has_remote (env : Env) (branch : String) : Run Bool :=
  match env.lsRemoteResult with
  | .error e => ⟨[.lsRemote branch], .err e⟩
  | .ok out => ⟨[.lsRemote branch], .ok out.success⟩

/-- `check_for_remote`: resolves the current branch, checks for a remote
counterpart, and pushes only when none exists. -/
def check_for_remote (env : Env) : Run Unit :=
  (get_current_branch env).bind fun branch =>
    (has_remote env branch).bind fun hr =>
      if hr then ⟨[], .ok ()⟩ else push_to_remote env branch

/-- `get_git_diff`: runs `git diff origin/master` and returns its lossily
decoded stdout; the exit status is never inspected. -/
def get_git_diff (env : Env) : Run String :=
  match env.diffResult with
  | .error e => ⟨[.gitDiff], .err e⟩
  | .ok out => ⟨[.gitDiff], .ok out.stdout⟩

/-- Splitting a character list at every newline; always returns at least
one (possibly empty) piece, the pieces joined by a newline give back the
input. -/
def splitNl : List Char → List (List Char)
  | [] => [[]]
  | c :: rest =>
    if c = '\n' then [] :: splitNl rest
    else
      match splitNl rest with
      | [] => [[c]]
      | p :: ps => (c :: p) :: ps

/-- Removing one trailing carriage return, as Rust `str::lines` does on
every line that was terminated by a newline. -/
def stripCr (l : List Char) : List Char :=
  if l.getLast? = some '\r' then l.dropLast else l

/-- Rust `str::lines` on a character list: split at newlines, drop the
final piece when it is empty (the optional final line terminator), and
strip a trailing carriage return from every newline-terminated piece. -/
def rustLinesCore (s : List Char) : List (List Char) :=
  (splitNl s).dropLast.map stripCr ++
    (match (splitNl s).getLast? with
     | some [] => []
     | some (c :: cs) => [c :: cs]
     | none => [])

/-- The commit-subject parser of `get_commit_messages`:
`String::from_utf8_lossy(stdout).lines().map(String::from).collect()`. -/
def parseSubjects (s : String) : List String :=
  (rustLinesCore s.data).map String.mk

/-- `get_commit_messages`: runs `git log origin/master..HEAD
--pretty=format:%s` and splits its lossily decoded stdout into lines; the
exit status is never inspected. -/
def get_commit_messages (env : Env) : Run (List String) :=
  match env.logResult with
  | .error e => ⟨[.gitLog], .err e⟩
  | .ok out => ⟨[.gitLog], .ok (parseSubjects out.stdout)⟩

/-- `get_linked_issue`: unimplemented placeholder, always `Ok(None)` and
no external call. -/
def get_linked_issue : Run (Option String) := ⟨[], .ok none⟩

/-- Rust slice `join`: the pieces with the separator between consecutive
pieces. -/
def rustJoin (sep : String) : List String → String
  | [] => ""
  | [s] => s
  | s :: rest => s ++ sep ++ rustJoin sep rest

/-- Rust `char::escape_debug` as `Debug` for strings uses it: the named
escapes for quote, backslash, newline, carriage return and tab, a
lowercase hexadecimal escape for the remaining ASCII control characters,
and every other character unchanged (exact on ASCII; printable characters
pass through in Rust too). -/
def escapeDebugChar (c : Char) : List Char :=
  if c = '"' then ['\\', '"']
  else if c = '\\' then ['\\', '\\']
  else if c = '\n' then ['\\', 'n']
  else if c = '\r' then ['\\', 'r']
  else if c = '\t' then ['\\', 't']
  else if c.toNat < 32 ∨ c.toNat = 127 then
    ['\\', 'u', Char.ofNat 123] ++ Nat.toDigits 16 c.toNat ++ [Char.ofNat 125]
  else [c]

/-- Rust `Debug` rendering of a string: the escaped characters between
double quotes. -/
def debugFormat (s : String) : String :=
  ⟨'"' :: (s.data.foldr (fun c acc => escapeDebugChar c ++ acc) []) ++ ['"']⟩

/-- Rust `Debug` rendering of an optional string, as the prompt's
`{:?}` placeholder produces it. -/
def debugOption : Option String → String
  | none => "None"
  | some s => "Some(" ++ debugFormat s ++ ")"

/-- Modelled from the anthropic crate: its `HUMAN_PROMPT` constant. -/
def HUMAN_PROMPT : String := "\n\nHuman:"

/-- Modelled from the anthropic crate: its `AI_PROMPT` constant. -/
def AI_PROMPT : String := "\n\nAssistant:"

/-- The prompt body built by `generate_pr_description`: the fixed
instruction, the diff text, the commit subjects joined by newlines, and
the debug-rendered optional issue, exactly as the `format!` string (with
its line continuations) lays them out. -/
def build_prompt (diff : String) (commits : List String) (issue : Option String) : String :=
  "Generate a pull request description based on the following information:\nDiff: "
    ++ diff
    ++ "\nCommit messages: "
    ++ rustJoin "\n" commits
    ++ "\nLinked issue: "
    ++ debugOption issue
    ++ "\nPlease summarize the changes, their purpose, and any potential impact."

/-- The full prompt submitted to the completion endpoint:
`format!("{HUMAN_PROMPT}{}\n{AI_PROMPT}", prompt)`. -/
def request_prompt (diff : String) (commits : List String) (issue : Option String) : String :=
  HUMAN_PROMPT ++ build_prompt diff commits issue ++ "\n" ++ AI_PROMPT

/-- `generate_pr_description`: builds the prompt, issues one call to the
completion endpoint, and returns the completion text verbatim; any
transport or API failure propagates as an error. -/
def generate_pr_description (env : Env) (diff : String) (commits : List String)
    (issue : Option String) : Run String :=
  match env.aiResult with
  | .error e => ⟨[.ai (request_prompt diff commits issue)], .err e⟩
  | .ok completion => ⟨[.ai (request_prompt diff commits issue)], .ok completion⟩

/-- `create_pull_request`: invokes `gh pr create --title "Automated Pull
Request" --body <description> --base master` via `exec`, replacing the
process image; when `exec` succeeds nothing after it runs and the child's
exit code becomes the process's, and when `exec` itself fails the returned
error is discarded and the function returns `Ok(())`. -/
def create_pull_request (env : Env) (description : String) : Run Unit :=
  match env.execResult with
  | .error _ => ⟨[.ghCreate "Automated Pull Request" description "master"], .ok ()⟩
  | .ok code => ⟨[.ghCreate "Automated Pull Request" description "master"], .exec code⟩

/-- `main`: loads dotenv, reads the required `ANTHROPIC_KEY` (panicking
via `expect` when absent, before anything else runs), then sequences the
stages; the progress bars are presentation only and are abstracted away. -/
def main (env : Env) : Run Unit :=
  match env.anthropicKey with
  | none => ⟨[], .fatal "no anthropic key"⟩
  | some _ =>
    (check_uncommitted_changes env).bind fun _ =>
    (check_for_remote env).bind fun _ =>
    (get_git_diff env).bind fun diff =>
    (get_commit_messages env).bind fun commits =>
    get_linked_issue.bind fun issue =>
    (generate_pr_description env diff commits issue).bind fun desc =>
    (create_pull_request env desc).bind fun _ => ⟨[], .ok ()⟩

/-- The process exit status each control-flow outcome produces: an Ok
return from `main` exits 0, an anyhow error exits 1, a panic exits 101,
and after a successful `exec` the replacing child's own code is the
process's. -/
def processExit : Ctl Unit → Nat
  | .ok _ => 0
  | .err _ => 1
  | .exit n => n
  | .fatal _ => 101
  | .exec n => n

/-- The stage of the orchestration sequence each external call belongs to:
VerifyClean 0, EnsureRemote 1, CollectDiff 2, CollectCommits 3,
ResolveIssue 4 (no calls), GenerateDescription 5, Publish 6. -/
def stageIdx : Call → Nat
  | .gitStatus => 0
  | .stderrMsg _ => 0
  | .revParse => 1
  | .lsRemote _ => 1
  | .push _ => 1
  | .gitDiff => 2
  | .gitLog => 3
  | .ai _ => 5
  | .ghCreate _ _ _ => 6

/-- Whether a call is a push. -/
def isPush : Call → Bool
  | .push _ => true
  | _ => false

/-- Whether a call is a PR creation. -/
def isGhCreate : Call → Bool
  | .ghCreate _ _ _ => true
  | _ => false

/-- Whether a call is the outbound AI call. -/
def isAi : Call → Bool
  | .ai _ => true
  | _ => false

/-- Joining lines with single newline separators: the shape of a command
output consisting of the given newline-separated lines with no trailing
newline. -/
def joinNl : List (List Char) → List Char
  | [] => []
  | [l] => l
  | l :: rest => l ++ '\n' :: joinNl rest

/-- A successful command outcome with the given stdout text. -/
def okOut (s : String) : CmdOut := ⟨true, s, true⟩

/-- A fully successful environment: key present, clean tree, branch
`feature` with an existing remote, non-empty diff and log, AI completion
text, and a `gh` child that exits 0. -/
def envClean : Env := {
  anthropicKey := some "k",
  statusResult := .ok (okOut ""),
  revParseResult := .ok (okOut "feature\n"),
  lsRemoteResult := .ok (okOut ""),
  pushSpawn := .ok true,
  diffResult := .ok (okOut "diff --git a/x b/x"),
  logResult := .ok (okOut "fix bug\nadd test"),
  aiResult := .ok "Summary: ...",
  execResult := .ok 0 }

/-- As `envClean` but with a dirty working tree. -/
def envDirty : Env := { envClean with statusResult := .ok (okOut " M main.rs") }

/-- As `envClean` but with the AI key absent. -/
def envNoKey : Env := { envClean with anthropicKey := none }

/-- As `envClean` but with no remote counterpart for the branch, and a
push whose spawn succeeds while the pushed child process exits with a
failure status. -/
def envNoRemote : Env :=
  { envClean with lsRemoteResult := .ok ⟨false, "", true⟩, pushSpawn := .ok false }

/-- As `envClean` but the diff query exits with a non-zero status. -/
def envDiffFail : Env :=
  { envClean with diffResult := .ok ⟨false, "fatal: bad revision", true⟩ }

/-- As `envClean` but the `exec` of `gh pr create` itself fails. -/
def envExecFail : Env := { envClean with execResult := .error "exec failed" }

/-- The possible observable shapes of a whole run, one constructor per
point the sequence can stop at, each fixing the trace of external calls
and the final control-flow outcome. -/
inductive MainShape (env : Env) : Run Unit → Prop where
  | noKey : MainShape env ⟨[], .fatal "no anthropic key"⟩
  | statusErr (e : String) : MainShape env ⟨[.gitStatus], .err e⟩
  | dirty : MainShape env ⟨[.gitStatus, .stderrMsg uncommittedChangesMsg], .exit 1⟩
  | branchErr (e : String) : MainShape env ⟨[.gitStatus, .revParse], .err e⟩
  | lsErr (br e : String) :
      MainShape env ⟨[.gitStatus, .revParse, .lsRemote br], .err e⟩
  | pushSpawnErr (br : String) :
      MainShape env ⟨[.gitStatus, .revParse, .lsRemote br, .push br], .fatal "Could not push"⟩
  | diffErr (br : String) (pp : List Call) (e : String)
      (hpp : pp = [] ∨ pp = [Call.push br]) :
      MainShape env ⟨[.gitStatus, .revParse, .lsRemote br] ++ pp ++ [.gitDiff], .err e⟩
  | logErr (br : String) (pp : List Call) (e : String)
      (hpp : pp = [] ∨ pp = [Call.push br]) :
      MainShape env
        ⟨[.gitStatus, .revParse, .lsRemote br] ++ pp ++ [.gitDiff, .gitLog], .err e⟩
  | aiErr (br : String) (pp : List Call) (p e : String)
      (hpp : pp = [] ∨ pp = [Call.push br]) :
      MainShape env
        ⟨[.gitStatus, .revParse, .lsRemote br] ++ pp ++ [.gitDiff, .gitLog, .ai p], .err e⟩
  | done (br : String) (pp : List Call) (p body : String) (res : Ctl Unit)
      (hpp : pp = [] ∨ pp = [Call.push br])
      (hai : env.aiResult = Except.ok body)
      (hres : res = Ctl.ok () ∨ ∃ c, res = Ctl.exec c) :
      MainShape env
        ⟨[.gitStatus, .revParse, .lsRemote br] ++ pp ++
          [.gitDiff, .gitLog, .ai p,
           .ghCreate "Automated Pull Request" body "master"], res⟩


theorem main_rest (env : Env) (k br : String) (pp : List Call)
    (hk : env.anthropicKey = some k)
    (hcuc : check_uncommitted_changes env = ⟨[.gitStatus], .ok ()⟩)
    (hcfr : check_for_remote env = ⟨[Call.revParse, Call.lsRemote br] ++ pp, .ok ()⟩)
    (hpp : pp = [] ∨ pp = [Call.push br]) :
    MainShape env (main env) := by
  rcases hd : env.diffResult with e | d
  · have hm : main env =
        ⟨[Call.gitStatus, Call.revParse, Call.lsRemote br] ++ pp ++ [Call.gitDiff], .err e⟩ := by
      simp [main, hk, hcuc, Run.bind, hcfr, get_git_diff, hd]
    rw [hm]; exact .diffErr br pp e hpp
  rcases hl : env.logResult with e | l
  · have hm : main env =
        ⟨[Call.gitStatus, Call.revParse, Call.lsRemote br] ++ pp ++
          [Call.gitDiff, Call.gitLog], .err e⟩ := by
      simp [main, hk, hcuc, Run.bind, hcfr, get_git_diff, hd, get_commit_messages, hl]
    rw [hm]; exact .logErr br pp e hpp
  rcases ha : env.aiResult with e | body
  · have hm : main env =
        ⟨[Call.gitStatus, Call.revParse, Call.lsRemote br] ++ pp ++
          [Call.gitDiff, Call.gitLog,
           Call.ai (request_prompt d.stdout (parseSubjects l.stdout) none)], .err e⟩ := by
      simp [main, hk, hcuc, Run.bind, hcfr, get_git_diff, hd, get_commit_messages, hl,
        get_linked_issue, generate_pr_description, ha]
    rw [hm]; exact .aiErr br pp _ e hpp
  rcases hex : env.execResult with e | c
  · have hm : main env =
        ⟨[Call.gitStatus, Call.revParse, Call.lsRemote br] ++ pp ++
          [Call.gitDiff, Call.gitLog,
           Call.ai (request_prompt d.stdout (parseSubjects l.stdout) none),
           Call.ghCreate "Automated Pull Request" body "master"], .ok ()⟩ := by
      simp [main, hk, hcuc, Run.bind, hcfr, get_git_diff, hd, get_commit_messages, hl,
        get_linked_issue, generate_pr_description, ha, create_pull_request, hex]
    rw [hm]; exact .done br pp _ body _ hpp ha (Or.inl rfl)
  · have hm : main env =
        ⟨[Call.gitStatus, Call.revParse, Call.lsRemote br] ++ pp ++
          [Call.gitDiff, Call.gitLog,
           Call.ai (request_prompt d.stdout (parseSubjects l.stdout) none),
           Call.ghCreate "Automated Pull Request" body "master"], .exec c⟩ := by
      simp [main, hk, hcuc, Run.bind, hcfr, get_git_diff, hd, get_commit_messages, hl,
        get_linked_issue, generate_pr_description, ha, create_pull_request, hex]
    rw [hm]; exact .done br pp _ body _ hpp ha (Or.inr ⟨c, rfl⟩)


theorem main_shape (env : Env) : MainShape env (main env) := by
  rcases hk : env.anthropicKey with _ | k
  · have hm : main env = ⟨[], .fatal "no anthropic key"⟩ := by simp [main, hk]
    rw [hm]; exact .noKey
  rcases hst : env.statusResult with e | st
  · have hm : main env = ⟨[.gitStatus], .err e⟩ := by
      simp [main, hk, check_uncommitted_changes, hst, Run.bind]
    rw [hm]; exact .statusErr e
  by_cases hso : st.stdout = ""
  case neg =>
    have hm : main env = ⟨[.gitStatus, .stderrMsg uncommittedChangesMsg], .exit 1⟩ := by
      simp [main, hk, check_uncommitted_changes, hst, hso, Run.bind]
    rw [hm]; exact .dirty
  case pos =>
  have hcuc : check_uncommitted_changes env = ⟨[.gitStatus], .ok ()⟩ := by
    simp [check_uncommitted_changes, hst, hso]
  rcases hrp : env.revParseResult with e | rp
  · have hm : main env = ⟨[.gitStatus, .revParse], .err e⟩ := by
      simp [main, hk, hcuc, Run.bind, check_for_remote, get_current_branch, hrp]
    rw [hm]; exact .branchErr e
  by_cases hrs : rp.success
  case neg =>
    have hm : main env = ⟨[.gitStatus, .revParse], .err "Failed to get current branch"⟩ := by
      simp [main, hk, hcuc, Run.bind, check_for_remote, get_current_branch, hrp, hrs]
    rw [hm]; exact .branchErr _
  case pos =>
  by_cases hru : rp.utf8Valid
  case neg =>
    have hm : main env = ⟨[.gitStatus, .revParse], .err "invalid utf-8 sequence"⟩ := by
      simp [main, hk, hcuc, Run.bind, check_for_remote, get_current_branch, hrp, hrs, hru]
    rw [hm]; exact .branchErr _
  case pos =>
  have hgcb : get_current_branch env = ⟨[.revParse], .ok (rustTrim rp.stdout)⟩ := by
    simp [get_current_branch, hrp, hrs, hru]
  rcases hls : env.lsRemoteResult with e | ls
  · have hm : main env = ⟨[.gitStatus, .revParse, .lsRemote (rustTrim rp.stdout)], .err e⟩ := by
      simp [main, hk, hcuc, Run.bind, check_for_remote, hgcb, has_remote, hls]
    rw [hm]; exact .lsErr _ e
  by_cases hlss : ls.success
  case pos =>
    have hcfr : check_for_remote env =
        ⟨[.revParse, .lsRemote (rustTrim rp.stdout)], .ok ()⟩ := by
      simp [check_for_remote, hgcb, Run.bind, has_remote, hls, hlss]
    exact main_rest env k (rustTrim rp.stdout) [] hk hcuc (by simp [hcfr]) (Or.inl rfl)
  case neg =>
  rcases hps : env.pushSpawn with e | b
  · have hm : main env = ⟨[.gitStatus, .revParse, .lsRemote (rustTrim rp.stdout),
        .push (rustTrim rp.stdout)], .fatal "Could not push"⟩ := by
      simp [main, hk, hcuc, Run.bind, check_for_remote, hgcb, has_remote, hls, hlss,
        push_to_remote, hps]
    rw [hm]; exact .pushSpawnErr _
  · have hcfr : check_for_remote env =
        ⟨[.revParse, .lsRemote (rustTrim rp.stdout), .push (rustTrim rp.stdout)], .ok ()⟩ := by
      simp [check_for_remote, hgcb, Run.bind, has_remote, hls, hlss, push_to_remote, hps]
    exact main_rest env k (rustTrim rp.stdout) [Call.push (rustTrim rp.stdout)] hk hcuc hcfr (Or.inr rfl)

/-- C1: with the AI key present, whenever the status query reports a dirty
working tree (non-empty stdout), the run stops at the VerifyClean stage:
it prints the fixed uncommitted-changes message to stderr, terminates with
process exit status 1, and issues no push, diff, commit-log, AI, or
publish call. -/
theorem c1_dirty_tree_aborts (env : Env) (k : String) (out : CmdOut)
    (hk : env.anthropicKey = some k) (hst : env.statusResult = Except.ok out)
    (hdirty : out.stdout ≠ "") :
    main env = ⟨[.gitStatus, .stderrMsg uncommittedChangesMsg], .exit 1⟩ ∧
    processExit (main env).result = 1 ∧
    ∀ c ∈ (main env).trace,
      isPush c = false ∧ isAi c = false ∧ isGhCreate c = false ∧
      c ≠ Call.gitDiff ∧ c ≠ Call.gitLog := by
  have hm : main env = ⟨[.gitStatus, .stderrMsg uncommittedChangesMsg], .exit 1⟩ := by
    simp [main, hk, check_uncommitted_changes, hst, hdirty, Run.bind]
  refine ⟨hm, by rw [hm]; rfl, ?_⟩
  rw [hm]
  intro c hc
  simp only [List.mem_cons, List.not_mem_nil, or_false] at hc
  rcases hc with rfl | rfl <;> simp [isPush, isAi, isGhCreate]

/-- Witness for C1 at the concrete dirty-tree environment. -/
theorem c1_witness :
    main envDirty = ⟨[.gitStatus, .stderrMsg uncommittedChangesMsg], .exit 1⟩ ∧
    processExit (main envDirty).result = 1 ∧
    ∀ c ∈ (main envDirty).trace,
      isPush c = false ∧ isAi c = false ∧ isGhCreate c = false ∧
      c ≠ Call.gitDiff ∧ c ≠ Call.gitLog :=
  c1_dirty_tree_aborts envDirty "k" (okOut " M main.rs") rfl rfl (by decide)

/-- C9: when the `ANTHROPIC_KEY` environment variable is absent, the
process panics with a fatal message at startup, before the clean-tree
check runs and before any external call at all: the trace is empty and
the exit status is the panic status 101. -/
theorem c9_missing_key_aborts (env : Env) (hk : env.anthropicKey = none) :
    main env = ⟨[], .fatal "no anthropic key"⟩ ∧
    (main env).trace = [] ∧ processExit (main env).result = 101 := by
  have hm : main env = ⟨[], .fatal "no anthropic key"⟩ := by simp [main, hk]
  exact ⟨hm, by rw [hm], by rw [hm]; rfl⟩

/-- Witness for C9 at the concrete keyless environment. -/
theorem c9_witness :
    main envNoKey = ⟨[], .fatal "no anthropic key"⟩ ∧
    (main envNoKey).trace = [] ∧ processExit (main envNoKey).result = 101 :=
  c9_missing_key_aborts envNoKey rfl

/-- C10: `has_remote` returns exactly the success bit of the `ls-remote`
command: any non-zero exit, whatever its cause, yields `Ok(false)` and
never an error, and inside `check_for_remote` a false bit is what triggers
the push to origin while a true bit suppresses it. -/
theorem c10_has_remote_success_bit (env : Env) (br : String) (out : CmdOut)
    (hls : env.lsRemoteResult = Except.ok out) :
    has_remote env br = ⟨[.lsRemote br], .ok out.success⟩ ∧
    (∀ bout, env.revParseResult = Except.ok bout → bout.success = true →
      bout.utf8Valid = true → out.success = false →
      Call.push (rustTrim bout.stdout) ∈ (check_for_remote env).trace) ∧
    (∀ bout, env.revParseResult = Except.ok bout → bout.success = true →
      bout.utf8Valid = true → out.success = true →
      ∀ b, Call.push b ∉ (check_for_remote env).trace) := by
  refine ⟨by simp [has_remote, hls], ?_, ?_⟩
  · intro bout h1 h2 h3 h4
    rcases hps : env.pushSpawn with e | b <;>
      simp [check_for_remote, get_current_branch, h1, h2, h3, Run.bind, has_remote, hls, h4,
        push_to_remote, hps]
  · intro bout h1 h2 h3 h4 b
    simp [check_for_remote, get_current_branch, h1, h2, h3, Run.bind, has_remote, hls, h4]

/-- Witness for C10 at the concrete environment with an existing remote. -/
theorem c10_witness :
    has_remote envClean "feature" = ⟨[.lsRemote "feature"], .ok (okOut "").success⟩ ∧
    ∀ b, Call.push b ∉ (check_for_remote envClean).trace :=
  ⟨(c10_has_remote_success_bit envClean "feature" (okOut "") rfl).1,
   fun b => (c10_has_remote_success_bit envClean "feature" (okOut "") rfl).2.2
     (okOut "feature\n") rfl rfl rfl rfl b⟩

/-- C4 counterexample: in `envNoRemote` the branch has no remote
counterpart and the spawned push's child process exits with a failure
status, yet `check_for_remote` returns success rather than surfacing any
error to its caller. -/
theorem c4_counterexample :
    envNoRemote.lsRemoteResult = Except.ok ⟨false, "", true⟩ ∧
    envNoRemote.pushSpawn = Except.ok false ∧
    (check_for_remote envNoRemote).result = Ctl.ok () :=
  ⟨rfl, rfl, rfl⟩

/-- C4 (amended): when the branch has no remote counterpart the push is
spawned, but its exit status is never inspected: a spawned push always
returns success, so `check_for_remote` succeeds regardless of whether the
push failed; only a failure to spawn the push at all aborts, via a panic,
not via an error surfaced to the caller. -/
theorem c4_push_failure_not_surfaced (env : Env) (br : String) :
    (∀ b, env.pushSpawn = Except.ok b → push_to_remote env br = ⟨[.push br], .ok ()⟩) ∧
    (∀ b bout lout, env.pushSpawn = Except.ok b →
      env.revParseResult = Except.ok bout → bout.success = true → bout.utf8Valid = true →
      env.lsRemoteResult = Except.ok lout → lout.success = false →
      (check_for_remote env).result = Ctl.ok ()) ∧
    (∀ e, env.pushSpawn = Except.error e →
      (push_to_remote env br).result = Ctl.fatal "Could not push") := by
  refine ⟨?_, ?_, ?_⟩
  · intro b hb
    simp [push_to_remote, hb]
  · intro b bout lout hb h1 h2 h3 h4 h5
    simp [check_for_remote, get_current_branch, h1, h2, h3, Run.bind, has_remote, h4, h5,
      push_to_remote, hb]
  · intro e he
    simp [push_to_remote, he]

/-- Witness for C4 (amended) at the concrete environment without a
remote counterpart. -/
theorem c4_witness :
    push_to_remote envNoRemote "feature" = ⟨[.push "feature"], .ok ()⟩ ∧
    (check_for_remote envNoRemote).result = Ctl.ok () :=
  ⟨(c4_push_failure_not_surfaced envNoRemote "feature").1 false rfl,
   (c4_push_failure_not_surfaced envNoRemote "feature").2.1 false (okOut "feature\n")
     ⟨false, "", true⟩ rfl rfl rfl rfl rfl rfl⟩

/-- C5 counterexample: in `envDiffFail` the diff query exits with a
non-zero status, yet `get_git_diff` returns the captured stdout as a
success value instead of an error. -/
theorem c5_counterexample :
    envDiffFail.diffResult = Except.ok ⟨false, "fatal: bad revision", true⟩ ∧
    (get_git_diff envDiffFail).result = Ctl.ok "fatal: bad revision" :=
  ⟨rfl, rfl⟩

/-- C5 (amended): only `get_current_branch` reports a failed query as an
error (non-zero exit, or undecodable output via `from_utf8`);
`get_git_diff` and `get_commit_messages` never inspect the exit status and
decode lossily, returning the captured stdout as success whatever the exit
status; an IO-level failure to run the command propagates as an error for
all three operations. -/
theorem c5_probe_error_reporting (env : Env) :
    (∀ out, env.diffResult = Except.ok out →
      get_git_diff env = ⟨[.gitDiff], .ok out.stdout⟩) ∧
    (∀ out, env.logResult = Except.ok out →
      get_commit_messages env = ⟨[.gitLog], .ok (parseSubjects out.stdout)⟩) ∧
    (∀ out, env.revParseResult = Except.ok out → out.success = false →
      (get_current_branch env).result = Ctl.err "Failed to get current branch") ∧
    (∀ out, env.revParseResult = Except.ok out → out.success = true → out.utf8Valid = false →
      (get_current_branch env).result = Ctl.err "invalid utf-8 sequence") ∧
    (∀ e, env.diffResult = Except.error e → (get_git_diff env).result = Ctl.err e) ∧
    (∀ e, env.logResult = Except.error e → (get_commit_messages env).result = Ctl.err e) ∧
    (∀ e, env.revParseResult = Except.error e → (get_current_branch env).result = Ctl.err e) := by
  refine ⟨?_, ?_, ?_, ?_, ?_, ?_, ?_⟩
  · intro out h
    simp [get_git_diff, h]
  · intro out h
    simp [get_commit_messages, h]
  · intro out h hs
    simp [get_current_branch, h, hs]
  · intro out h hs hu
    simp [get_current_branch, h, hs, hu]
  · intro e h
    simp [get_git_diff, h]
  · intro e h
    simp [get_commit_messages, h]
  · intro e h
    simp [get_current_branch, h]

/-- Witness for C5 (amended) at the concrete successful environment. -/
theorem c5_witness :
    get_git_diff envClean = ⟨[.gitDiff], .ok (okOut "diff --git a/x b/x").stdout⟩ ∧
    get_commit_messages envClean =
      ⟨[.gitLog], .ok (parseSubjects (okOut "fix bug\nadd test").stdout)⟩ :=
  ⟨(c5_probe_error_reporting envClean).1 (okOut "diff --git a/x b/x") rfl,
   (c5_probe_error_reporting envClean).2.1 (okOut "fix bug\nadd test") rfl⟩

/-- C3 counterexample: in `envExecFail` the PR-creation call fails (the
`exec` of `gh` returns an error), yet the failure is discarded: `main`
returns success and the process exits with status 0 instead of aborting
with a non-zero status carrying a publish error. -/
theorem c3_counterexample :
    envExecFail.execResult = Except.error "exec failed" ∧
    (main envExecFail).result = Ctl.ok () ∧
    processExit (main envExecFail).result = 0 :=
  ⟨rfl, rfl, rfl⟩

/-- C3 (amended): neither a failed push nor a failed PR creation is
surfaced as an error value.  With every stage up to description generation
succeeding, a push whose child process fails does not stop the run; when
the `exec` of `gh pr create` itself fails, the returned error is discarded
and the process exits 0; when `exec` succeeds, the `gh` child's own exit
code becomes the process's exit status with no error value in between. -/
theorem c3_publish_failures_ignored (env : Env) (k : String) (st rp ls d l : CmdOut)
    (a : String)
    (hk : env.anthropicKey = some k) (hst : env.statusResult = Except.ok st)
    (hclean : st.stdout = "") (hrp : env.revParseResult = Except.ok rp)
    (hrs : rp.success = true) (hru : rp.utf8Valid = true)
    (hls : env.lsRemoteResult = Except.ok ls)
    (hpush : ls.success = false → ∃ b, env.pushSpawn = Except.ok b)
    (hd : env.diffResult = Except.ok d) (hl : env.logResult = Except.ok l)
    (ha : env.aiResult = Except.ok a) :
    (∀ e, env.execResult = Except.error e →
      (main env).result = Ctl.ok () ∧ processExit (main env).result = 0) ∧
    (∀ c, env.execResult = Except.ok c →
      (main env).result = Ctl.exec c ∧ processExit (main env).result = c) := by
  have hcuc : check_uncommitted_changes env = ⟨[.gitStatus], .ok ()⟩ := by
    simp [check_uncommitted_changes, hst, hclean]
  have hgcb : get_current_branch env = ⟨[.revParse], .ok (rustTrim rp.stdout)⟩ := by
    simp [get_current_branch, hrp, hrs, hru]
  obtain ⟨t, hcfr⟩ : ∃ t, check_for_remote env = ⟨t, Ctl.ok ()⟩ := by
    rcases hlss : ls.success
    · obtain ⟨b, hb⟩ := hpush hlss
      exact ⟨[Call.revParse, Call.lsRemote (rustTrim rp.stdout),
          Call.push (rustTrim rp.stdout)], by
        simp [check_for_remote, hgcb, Run.bind, has_remote, hls, hlss, push_to_remote, hb]⟩
    · exact ⟨[Call.revParse, Call.lsRemote (rustTrim rp.stdout)], by
        simp [check_for_remote, hgcb, Run.bind, has_remote, hls, hlss]⟩
  refine ⟨?_, ?_⟩
  · intro e he
    have hr : (main env).result = Ctl.ok () := by
      simp [main, hk, hcuc, Run.bind, hcfr, get_git_diff, hd, get_commit_messages, hl,
        get_linked_issue, generate_pr_description, ha, create_pull_request, he]
    exact ⟨hr, by rw [hr]; rfl⟩
  · intro c hc
    have hr : (main env).result = Ctl.exec c := by
      simp [main, hk, hcuc, Run.bind, hcfr, get_git_diff, hd, get_commit_messages, hl,
        get_linked_issue, generate_pr_description, ha, create_pull_request, hc]
    exact ⟨hr, by rw [hr]; rfl⟩

/-- Witness for C3 (amended) at the concrete environment whose `exec`
fails. -/
theorem c3_witness :
    (main envExecFail).result = Ctl.ok () ∧
    processExit (main envExecFail).result = 0 :=
  (c3_publish_failures_ignored envExecFail "k" (okOut "") (okOut "feature\n") (okOut "")
    (okOut "diff --git a/x b/x") (okOut "fix bug\nadd test") "Summary: ..."
    rfl rfl rfl rfl rfl rfl rfl (fun h => absurd h (by decide)) rfl rfl rfl).1
    "exec failed" rfl

/-- C6: on every run that ends with process exit status 0, exactly one
`gh pr create` invocation appears in the trace, with title the fixed
constant "Automated Pull Request", base branch the fixed constant
"master", and body exactly the completion text the AI endpoint returned,
unchanged. -/
theorem c6_single_pr_creation (env : Env)
    (h : processExit (main env).result = 0) :
    ∃ body, env.aiResult = Except.ok body ∧
      (main env).trace.filter (fun c => isGhCreate c) =
        [Call.ghCreate "Automated Pull Request" body "master"] := by
  have hs := main_shape env
  rcases hmr : main env with ⟨t, res⟩
  rw [hmr] at hs h
  cases hs
  case noKey => simp [processExit] at h
  case statusErr e => simp [processExit] at h
  case dirty => simp [processExit] at h
  case branchErr e => simp [processExit] at h
  case lsErr br e => simp [processExit] at h
  case pushSpawnErr br => simp [processExit] at h
  case diffErr br pp e hpp => simp [processExit] at h
  case logErr br pp e hpp => simp [processExit] at h
  case aiErr br pp p e hpp => simp [processExit] at h
  case done br pp p body hpp hai hres =>
    refine ⟨body, hai, ?_⟩
    rcases hpp with rfl | rfl <;> simp [isGhCreate]

/-- Witness for C6 at the concrete successful environment. -/
theorem c6_witness :
    ∃ body, envClean.aiResult = Except.ok body ∧
      (main envClean).trace.filter (fun c => isGhCreate c) =
        [Call.ghCreate "Automated Pull Request" body "master"] :=
  c6_single_pr_creation envClean rfl


theorem splitNl_no_nl (l : List Char) (h : '\n' ∉ l) : splitNl l = [l] := by
  induction l with
  | nil => rfl
  | cons c rest ih =>
    have hc : ¬ c = '\n' := fun hc => h (by simp [hc])
    have hr : '\n' ∉ rest := fun hr => h (List.mem_cons_of_mem _ hr)
    simp [splitNl, hc, ih hr]

theorem splitNl_append (l r : List Char) (h : '\n' ∉ l) :
    splitNl (l ++ '\n' :: r) = l :: splitNl r := by
  induction l with
  | nil => simp [splitNl]
  | cons c rest ih =>
    have hc : ¬ c = '\n' := fun hc => h (by simp [hc])
    have hr : '\n' ∉ rest := fun hr => h (List.mem_cons_of_mem _ hr)
    simp [splitNl, hc, ih hr]

theorem splitNl_joinNl (ls : List (List Char)) (h : ∀ l ∈ ls, '\n' ∉ l) (hne : ls ≠ []) :
    splitNl (joinNl ls) = ls := by
  induction ls with
  | nil => exact absurd rfl hne
  | cons a rest ih =>
    cases rest with
    | nil => simpa [joinNl] using splitNl_no_nl a (h a (by simp))
    | cons b rest2 =>
      have hj : joinNl (a :: b :: rest2) = a ++ '\n' :: joinNl (b :: rest2) := rfl
      rw [hj, splitNl_append a _ (h a (by simp)),
        ih (fun l hl => h l (List.mem_cons_of_mem _ hl)) (by simp)]

theorem splitNl_joinNl_concat (ls : List (List Char)) (h : ∀ l ∈ ls, '\n' ∉ l)
    (hne : ls ≠ []) :
    splitNl (joinNl ls ++ ['\n']) = ls ++ [[]] := by
  induction ls with
  | nil => exact absurd rfl hne
  | cons a rest ih =>
    cases rest with
    | nil =>
      have hj : joinNl [a] ++ ['\n'] = a ++ '\n' :: ([] : List Char) := by simp [joinNl]
      rw [hj, splitNl_append a [] (h a (by simp))]
      rfl
    | cons b rest2 =>
      have hj : joinNl (a :: b :: rest2) ++ ['\n'] =
          a ++ '\n' :: (joinNl (b :: rest2) ++ ['\n']) := by simp [joinNl]
      rw [hj, splitNl_append a _ (h a (by simp)),
        ih (fun l hl => h l (List.mem_cons_of_mem _ hl)) (by simp)]
      rfl

theorem stripCr_eq_self (l : List Char) (h : '\r' ∉ l) : stripCr l = l := by
  unfold stripCr
  split
  · next hlast =>
    have hmem : '\r' ∈ l := by
      obtain ⟨hne2, hx⟩ :=
        @List.mem_getLast?_eq_getLast _ l '\x0d' (by simp [hlast, Option.mem_def])
      rw [hx]
      exact List.getLast_mem hne2
    exact absurd hmem h
  · rfl

theorem map_stripCr_id (ts : List (List Char)) (h : ∀ t ∈ ts, '\r' ∉ t) :
    ts.map stripCr = ts := by
  induction ts with
  | nil => rfl
  | cons a rest ih =>
    simp [stripCr_eq_self a (h a (by simp)), ih (fun t ht => h t (by simp [ht]))]

theorem rustLinesCore_joinNl (ls : List (List Char)) (h : ∀ l ∈ ls, '\n' ∉ l ∧ '\r' ∉ l)
    (hlast : ls.getLast? ≠ some []) :
    rustLinesCore (joinNl ls) = ls := by
  by_cases hne : ls = []
  · subst hne; rfl
  · unfold rustLinesCore
    rw [splitNl_joinNl ls (fun l hl => (h l hl).1) hne]
    have hget := List.getLast?_eq_getLast_of_ne_nil hne
    rcases hg : ls.getLast hne with _ | ⟨c, cs⟩
    · exact absurd (hget.trans (by rw [hg])) hlast
    · rw [hget, hg]
      show ls.dropLast.map stripCr ++ [c :: cs] = ls
      rw [map_stripCr_id ls.dropLast (fun t ht => (h t (List.dropLast_subset ls ht)).2), ← hg]
      exact List.dropLast_append_getLast hne

theorem rustLinesCore_joinNl_concat (ls : List (List Char))
    (h : ∀ l ∈ ls, '\n' ∉ l ∧ '\r' ∉ l) (hne : ls ≠ []) :
    rustLinesCore (joinNl ls ++ ['\n']) = ls := by
  unfold rustLinesCore
  rw [splitNl_joinNl_concat ls (fun l hl => (h l hl).1) hne, List.getLast?_concat,
    List.dropLast_concat]
  show ls.map stripCr ++ [] = ls
  rw [map_stripCr_id ls (fun t ht => (h t ht).2), List.append_nil]

/-- C2: the commit-subject parser returns exactly the newline-separated
lines of the query output, in the same order: an output that is N lines
joined by newlines with no trailing blank line parses to exactly those N
lines, and a trailing newline (i.e. a trailing blank line) contributes no
element. -/
theorem c2_commit_subjects (ls : List (List Char))
    (h : ∀ l ∈ ls, '\n' ∉ l ∧ '\r' ∉ l) :
    (ls.getLast? ≠ some [] → parseSubjects ⟨joinNl ls⟩ = ls.map String.mk) ∧
    (ls ≠ [] → parseSubjects ⟨joinNl ls ++ ['\n']⟩ = ls.map String.mk) := by
  constructor
  · intro hlast
    show (rustLinesCore (joinNl ls)).map String.mk = ls.map String.mk
    rw [rustLinesCore_joinNl ls h hlast]
  · intro hne
    show (rustLinesCore (joinNl ls ++ ['\n'])).map String.mk = ls.map String.mk
    rw [rustLinesCore_joinNl_concat ls h hne]

/-- Witness for C2 on the two-line output with and without a trailing
newline. -/
theorem c2_witness :
    parseSubjects ⟨joinNl [['a'], ['b']]⟩ = [['a'], ['b']].map String.mk ∧
    parseSubjects ⟨joinNl [['a'], ['b']] ++ ['\n']⟩ = [['a'], ['b']].map String.mk :=
  ⟨(c2_commit_subjects [['a'], ['b']] (by decide)).1 (by decide),
   (c2_commit_subjects [['a'], ['b']] (by decide)).2 (by decide)⟩


set_option maxRecDepth 4000 in
theorem infix_rustJoin (cs : List String) (m : String) (hm : m ∈ cs) :
    m.data <:+: (rustJoin "\n" cs).data := by
  induction cs with
  | nil => cases hm
  | cons a rest ih =>
    cases rest with
    | nil =>
      rw [List.mem_singleton.mp hm]
      exact List.infix_rfl
    | cons b rest2 =>
      have hj : rustJoin "\n" (a :: b :: rest2) = a ++ "\n" ++ rustJoin "\n" (b :: rest2) := rfl
      rcases List.mem_cons.mp hm with rfl | hm2
      · exact ⟨[], ("\n" ++ rustJoin "\n" (b :: rest2)).data, by
          rw [hj]
          simp only [String.data_append, List.append_assoc, List.nil_append]⟩
      · obtain ⟨s, t, hst⟩ := ih hm2
        exact ⟨(a ++ "\n").data ++ s, t, by
          rw [hj]
          simp only [String.data_append, List.append_assoc, ← hst]⟩

/-- C7: the submitted prompt is a deterministic function of the triple
(diff text, commit subjects, linked issue): equal inputs give
byte-identical prompt strings; the diff text and every commit subject
appear verbatim in the prompt; and the linked-issue input, which
`get_linked_issue` always resolves to `none`, appears as its fixed
rendering verbatim in the prompt. -/
theorem c7_prompt_deterministic :
    (∀ d₁ c₁ i₁ d₂ c₂ i₂, d₁ = d₂ → c₁ = c₂ → i₁ = i₂ →
      request_prompt d₁ c₁ i₁ = request_prompt d₂ c₂ i₂) ∧
    (∀ d cs i, d.data <:+: (request_prompt d cs i).data) ∧
    (∀ d cs i m, m ∈ cs → m.data <:+: (request_prompt d cs i).data) ∧
    get_linked_issue = ⟨[], Ctl.ok none⟩ ∧
    (∀ d cs, (debugOption none).data <:+: (request_prompt d cs none).data) := by
  refine ⟨?_, ?_, ?_, rfl, ?_⟩
  · intro d₁ c₁ i₁ d₂ c₂ i₂ hd hc hi
    rw [hd, hc, hi]
  · intro d cs i
    exact ⟨(HUMAN_PROMPT ++
        "Generate a pull request description based on the following information:\nDiff: ").data,
      ("\nCommit messages: " ++ rustJoin "\n" cs ++ "\nLinked issue: " ++ debugOption i ++
        "\nPlease summarize the changes, their purpose, and any potential impact." ++
        "\n" ++ AI_PROMPT).data,
      by simp only [request_prompt, build_prompt, String.data_append, List.append_assoc]⟩
  · intro d cs i m hm
    obtain ⟨s, t, hst⟩ := infix_rustJoin cs m hm
    exact ⟨(HUMAN_PROMPT ++
        "Generate a pull request description based on the following information:\nDiff: " ++
        d ++ "\nCommit messages: ").data ++ s,
      t ++ ("\nLinked issue: " ++ debugOption i ++
        "\nPlease summarize the changes, their purpose, and any potential impact." ++
        "\n" ++ AI_PROMPT).data,
      by simp only [request_prompt, build_prompt, String.data_append, List.append_assoc,
        ← hst]⟩
  · intro d cs
    exact ⟨(HUMAN_PROMPT ++
        "Generate a pull request description based on the following information:\nDiff: " ++
        d ++ "\nCommit messages: " ++ rustJoin "\n" cs ++ "\nLinked issue: ").data,
      ("\nPlease summarize the changes, their purpose, and any potential impact." ++
        "\n" ++ AI_PROMPT).data,
      by simp only [request_prompt, build_prompt, String.data_append, List.append_assoc]⟩

/-- Witness for C7 at concrete inputs. -/
theorem c7_witness :
    request_prompt "d" ["fix bug"] none = request_prompt "d" ["fix bug"] none ∧
    ("fix bug" : String).data <:+: (request_prompt "d" ["fix bug"] none).data :=
  ⟨c7_prompt_deterministic.1 "d" ["fix bug"] none "d" ["fix bug"] none rfl rfl rfl,
   c7_prompt_deterministic.2.2.1 "d" ["fix bug"] none "fix bug" (by simp)⟩


/-- C8: the stages execute in the strict forward order VerifyClean,
EnsureRemote (including any push), CollectDiff, CollectCommits,
ResolveIssue, GenerateDescription, Publish, and any stage failure stops
the sequence so that no later stage runs: along every possible trace the
stage indices are nondecreasing, so no backward transition occurs; at
most one push is ever issued; an error-ending run contains no PR-creation
call; a missing key, a status failure, a dirty tree, a failed remote
stage, a failed diff, a failed commit-log query, and a failed AI call
each terminate the run with exactly the calls made up to and including
the failing stage — nothing later appears in the trace; and when the tree
is clean, the branch resolves, and it has no remote counterpart, exactly
one push to origin appears, before any diff or commit-log call. -/
theorem c8_stage_order (env : Env) :
    List.Chain' (· ≤ ·) ((main env).trace.map stageIdx) ∧
    ((main env).trace.filter (fun c => isPush c)).length ≤ 1 ∧
    (∀ e, (main env).result = Ctl.err e →
      (main env).trace.filter (fun c => isGhCreate c) = []) ∧
    (env.anthropicKey = none → main env = ⟨[], Ctl.fatal "no anthropic key"⟩) ∧
    (∀ k e, env.anthropicKey = some k → env.statusResult = Except.error e →
      main env = ⟨[Call.gitStatus], Ctl.err e⟩) ∧
    (∀ k st, env.anthropicKey = some k → env.statusResult = Except.ok st →
      st.stdout ≠ "" →
      main env = ⟨[Call.gitStatus, Call.stderrMsg uncommittedChangesMsg], Ctl.exit 1⟩) ∧
    (∀ k st, env.anthropicKey = some k → env.statusResult = Except.ok st →
      st.stdout = "" → (check_for_remote env).result ≠ Ctl.ok () →
      main env = ⟨[Call.gitStatus] ++ (check_for_remote env).trace,
        (check_for_remote env).result⟩) ∧
    (∀ k st e, env.anthropicKey = some k → env.statusResult = Except.ok st →
      st.stdout = "" → (check_for_remote env).result = Ctl.ok () →
      env.diffResult = Except.error e →
      main env = ⟨[Call.gitStatus] ++ (check_for_remote env).trace ++ [Call.gitDiff],
        Ctl.err e⟩) ∧
    (∀ k st d e, env.anthropicKey = some k → env.statusResult = Except.ok st →
      st.stdout = "" → (check_for_remote env).result = Ctl.ok () →
      env.diffResult = Except.ok d → env.logResult = Except.error e →
      main env = ⟨[Call.gitStatus] ++ (check_for_remote env).trace ++
        [Call.gitDiff, Call.gitLog], Ctl.err e⟩) ∧
    (∀ k st d l e, env.anthropicKey = some k → env.statusResult = Except.ok st →
      st.stdout = "" → (check_for_remote env).result = Ctl.ok () →
      env.diffResult = Except.ok d → env.logResult = Except.ok l →
      env.aiResult = Except.error e →
      main env = ⟨[Call.gitStatus] ++ (check_for_remote env).trace ++
        [Call.gitDiff, Call.gitLog,
         Call.ai (request_prompt d.stdout (parseSubjects l.stdout) none)], Ctl.err e⟩) ∧
    (∀ k st rp ls, env.anthropicKey = some k → env.statusResult = Except.ok st →
      st.stdout = "" → env.revParseResult = Except.ok rp → rp.success = true →
      rp.utf8Valid = true → env.lsRemoteResult = Except.ok ls → ls.success = false →
      ∃ post, (main env).trace =
        [Call.gitStatus, Call.revParse, Call.lsRemote (rustTrim rp.stdout),
         Call.push (rustTrim rp.stdout)] ++ post ∧
        post.filter (fun c => isPush c) = [] ∧
        Call.gitDiff ∉ [Call.gitStatus, Call.revParse, Call.lsRemote (rustTrim rp.stdout)] ∧
        Call.gitLog ∉ [Call.gitStatus, Call.revParse, Call.lsRemote (rustTrim rp.stdout)]) := by
  refine ⟨?_, ?_, ?_, ?_, ?_, ?_, ?_, ?_, ?_, ?_, ?_⟩
  · have hs := main_shape env
    rcases hmr : main env with ⟨t, res⟩
    rw [hmr] at hs
    cases hs
    case noKey => simp
    case statusErr e => simp [stageIdx]
    case dirty => simp [stageIdx]
    case branchErr e => simp [stageIdx]
    case lsErr br e => simp [stageIdx]
    case pushSpawnErr br => simp [stageIdx]
    case diffErr br pp e hpp =>
      rcases hpp with rfl | rfl <;> simp [stageIdx]
    case logErr br pp e hpp =>
      rcases hpp with rfl | rfl <;> simp [stageIdx]
    case aiErr br pp p e hpp =>
      rcases hpp with rfl | rfl <;> simp [stageIdx]
    case done br pp p body hpp hai hres =>
      rcases hpp with rfl | rfl <;> simp [stageIdx]
  · have hs := main_shape env
    rcases hmr : main env with ⟨t, res⟩
    rw [hmr] at hs
    cases hs
    case noKey => simp
    case statusErr e => simp [isPush]
    case dirty => simp [isPush]
    case branchErr e => simp [isPush]
    case lsErr br e => simp [isPush]
    case pushSpawnErr br => simp [isPush]
    case diffErr br pp e hpp =>
      rcases hpp with rfl | rfl <;> simp [isPush]
    case logErr br pp e hpp =>
      rcases hpp with rfl | rfl <;> simp [isPush]
    case aiErr br pp p e hpp =>
      rcases hpp with rfl | rfl <;> simp [isPush]
    case done br pp p body hpp hai hres =>
      rcases hpp with rfl | rfl <;> simp [isPush]
  · have hs := main_shape env
    rcases hmr : main env with ⟨t, res⟩
    rw [hmr] at hs
    intro e he
    simp only at he
    cases hs
    case noKey => simp at he
    case statusErr e2 => simp [isGhCreate]
    case dirty => simp at he
    case branchErr e2 => simp [isGhCreate]
    case lsErr br e2 => simp [isGhCreate]
    case pushSpawnErr br => simp at he
    case diffErr br pp e2 hpp =>
      rcases hpp with rfl | rfl <;> simp [isGhCreate]
    case logErr br pp e2 hpp =>
      rcases hpp with rfl | rfl <;> simp [isGhCreate]
    case aiErr br pp p e2 hpp =>
      rcases hpp with rfl | rfl <;> simp [isGhCreate]
    case done br pp p body hpp hai hres =>
      rcases hres with rfl | ⟨c, rfl⟩ <;> simp at he
  · intro hk
    simp [main, hk]
  · intro k e hk hst
    simp [main, hk, check_uncommitted_changes, hst, Run.bind]
  · intro k st hk hst hdirty
    simp [main, hk, check_uncommitted_changes, hst, hdirty, Run.bind]
  · intro k st hk hst hclean hne
    have hcuc : check_uncommitted_changes env = ⟨[.gitStatus], .ok ()⟩ := by
      simp [check_uncommitted_changes, hst, hclean]
    rcases hcfr : check_for_remote env with ⟨t, res⟩
    rw [hcfr] at hne
    rcases res with u | e2 | n | m | n
    · cases u
      exact absurd rfl hne
    · simp [main, hk, hcuc, Run.bind, hcfr]
    · simp [main, hk, hcuc, Run.bind, hcfr]
    · simp [main, hk, hcuc, Run.bind, hcfr]
    · simp [main, hk, hcuc, Run.bind, hcfr]
  · intro k st e hk hst hclean hok hd
    have hcuc : check_uncommitted_changes env = ⟨[.gitStatus], .ok ()⟩ := by
      simp [check_uncommitted_changes, hst, hclean]
    rcases hcfr : check_for_remote env with ⟨t, res⟩
    rw [hcfr] at hok
    have hres : res = Ctl.ok () := hok
    subst hres
    simp [main, hk, hcuc, Run.bind, hcfr, get_git_diff, hd]
  · intro k st d e hk hst hclean hok hd hl
    have hcuc : check_uncommitted_changes env = ⟨[.gitStatus], .ok ()⟩ := by
      simp [check_uncommitted_changes, hst, hclean]
    rcases hcfr : check_for_remote env with ⟨t, res⟩
    rw [hcfr] at hok
    have hres : res = Ctl.ok () := hok
    subst hres
    simp [main, hk, hcuc, Run.bind, hcfr, get_git_diff, hd, get_commit_messages, hl]
  · intro k st d l e hk hst hclean hok hd hl ha
    have hcuc : check_uncommitted_changes env = ⟨[.gitStatus], .ok ()⟩ := by
      simp [check_uncommitted_changes, hst, hclean]
    rcases hcfr : check_for_remote env with ⟨t, res⟩
    rw [hcfr] at hok
    have hres : res = Ctl.ok () := hok
    subst hres
    simp [main, hk, hcuc, Run.bind, hcfr, get_git_diff, hd, get_commit_messages, hl,
      get_linked_issue, generate_pr_description, ha]
  · intro k st rp ls hk hst hclean hrp hrs hru hls hlss
    have hnd : Call.gitDiff ∉
        [Call.gitStatus, Call.revParse, Call.lsRemote (rustTrim rp.stdout)] := by simp
    have hnl : Call.gitLog ∉
        [Call.gitStatus, Call.revParse, Call.lsRemote (rustTrim rp.stdout)] := by simp
    have hcuc : check_uncommitted_changes env = ⟨[.gitStatus], .ok ()⟩ := by
      simp [check_uncommitted_changes, hst, hclean]
    have hgcb : get_current_branch env = ⟨[.revParse], .ok (rustTrim rp.stdout)⟩ := by
      simp [get_current_branch, hrp, hrs, hru]
    rcases hps : env.pushSpawn with e | b
    · have hm : main env = ⟨[.gitStatus, .revParse, .lsRemote (rustTrim rp.stdout),
          .push (rustTrim rp.stdout)], .fatal "Could not push"⟩ := by
        simp [main, hk, hcuc, Run.bind, check_for_remote, hgcb, has_remote, hls, hlss,
          push_to_remote, hps]
      exact ⟨[], by rw [hm]; rfl, rfl, hnd, hnl⟩
    have hcfr : check_for_remote env = ⟨[.revParse, .lsRemote (rustTrim rp.stdout),
        .push (rustTrim rp.stdout)], .ok ()⟩ := by
      simp [check_for_remote, hgcb, Run.bind, has_remote, hls, hlss, push_to_remote, hps]
    rcases hd : env.diffResult with e | d
    · have hm : main env = ⟨[.gitStatus, .revParse, .lsRemote (rustTrim rp.stdout),
          .push (rustTrim rp.stdout), .gitDiff], .err e⟩ := by
        simp [main, hk, hcuc, Run.bind, hcfr, get_git_diff, hd]
      exact ⟨[Call.gitDiff], by rw [hm]; rfl, by simp [isPush], hnd, hnl⟩
    rcases hl : env.logResult with e | l
    · have hm : main env = ⟨[.gitStatus, .revParse, .lsRemote (rustTrim rp.stdout),
          .push (rustTrim rp.stdout), .gitDiff, .gitLog], .err e⟩ := by
        simp [main, hk, hcuc, Run.bind, hcfr, get_git_diff, hd, get_commit_messages, hl]
      exact ⟨[Call.gitDiff, Call.gitLog], by rw [hm]; rfl, by simp [isPush], hnd, hnl⟩
    rcases ha : env.aiResult with e | body
    · have hm : main env = ⟨[.gitStatus, .revParse, .lsRemote (rustTrim rp.stdout),
          .push (rustTrim rp.stdout), .gitDiff, .gitLog,
          .ai (request_prompt d.stdout (parseSubjects l.stdout) none)], .err e⟩ := by
        simp [main, hk, hcuc, Run.bind, hcfr, get_git_diff, hd, get_commit_messages, hl,
          get_linked_issue, generate_pr_description, ha]
      exact ⟨[Call.gitDiff, Call.gitLog,
          Call.ai (request_prompt d.stdout (parseSubjects l.stdout) none)],
        by rw [hm]; rfl, by simp [isPush], hnd, hnl⟩
    rcases hex : env.execResult with e | c
    · have hm : main env = ⟨[.gitStatus, .revParse, .lsRemote (rustTrim rp.stdout),
          .push (rustTrim rp.stdout), .gitDiff, .gitLog,
          .ai (request_prompt d.stdout (parseSubjects l.stdout) none),
          .ghCreate "Automated Pull Request" body "master"], .ok ()⟩ := by
        simp [main, hk, hcuc, Run.bind, hcfr, get_git_diff, hd, get_commit_messages, hl,
          get_linked_issue, generate_pr_description, ha, create_pull_request, hex]
      exact ⟨[Call.gitDiff, Call.gitLog,
          Call.ai (request_prompt d.stdout (parseSubjects l.stdout) none),
          Call.ghCreate "Automated Pull Request" body "master"],
        by rw [hm]; rfl, by simp [isPush], hnd, hnl⟩
    · have hm : main env = ⟨[.gitStatus, .revParse, .lsRemote (rustTrim rp.stdout),
          .push (rustTrim rp.stdout), .gitDiff, .gitLog,
          .ai (request_prompt d.stdout (parseSubjects l.stdout) none),
          .ghCreate "Automated Pull Request" body "master"], .exec c⟩ := by
        simp [main, hk, hcuc, Run.bind, hcfr, get_git_diff, hd, get_commit_messages, hl,
          get_linked_issue, generate_pr_description, ha, create_pull_request, hex]
      exact ⟨[Call.gitDiff, Call.gitLog,
          Call.ai (request_prompt d.stdout (parseSubjects l.stdout) none),
          Call.ghCreate "Automated Pull Request" body "master"],
        by rw [hm]; rfl, by simp [isPush], hnd, hnl⟩

/-- Witness for C8: the forward-order conjunct and the push placement at
the concrete environment without a remote counterpart, and the
dirty-tree truncation at the concrete dirty environment. -/
theorem c8_witness :
    List.Chain' (· ≤ ·) ((main envNoRemote).trace.map stageIdx) ∧
    main envDirty = ⟨[Call.gitStatus, Call.stderrMsg uncommittedChangesMsg], Ctl.exit 1⟩ ∧
    ∃ post, (main envNoRemote).trace =
      [Call.gitStatus, Call.revParse,
       Call.lsRemote (rustTrim (okOut "feature\n").stdout),
       Call.push (rustTrim (okOut "feature\n").stdout)] ++ post ∧
      post.filter (fun c => isPush c) = [] ∧
      Call.gitDiff ∉ [Call.gitStatus, Call.revParse,
        Call.lsRemote (rustTrim (okOut "feature\n").stdout)] ∧
      Call.gitLog ∉ [Call.gitStatus, Call.revParse,
        Call.lsRemote (rustTrim (okOut "feature\n").stdout)] :=
  ⟨(c8_stage_order envNoRemote).1,
   (c8_stage_order envDirty).2.2.2.2.2.1 "k" (okOut " M main.rs") rfl rfl (by decide),
   (c8_stage_order envNoRemote).2.2.2.2.2.2.2.2.2.2 "k" (okOut "") (okOut "feature\n")
     ⟨false, "", true⟩ rfl rfl rfl rfl rfl rfl rfl rfl⟩
end PullRequest

